import Mathlib

set_option maxRecDepth 100000

/-!
Verification of `download-certs.py`: a script that downloads certificate
bundles over HTTPS, verifies each against a pinned SHA-256 digest, and
persists verified bundles under `certs/`.

The embedding models bytes as `List Nat` (each element a byte value),
the filesystem as a map from path strings to optional file contents,
directories as a boolean predicate on path strings, and the network as an
oracle mapping a URL to an HTTP outcome.  SHA-256 is implemented in full
(32-bit words as `Nat` reduced mod `2^32`) so that `verify_hash` is
executable, matching `hashlib.sha256(...).hexdigest()`.
-/

/-- 2^32, the modulus for 32-bit word arithmetic. -/
def wordMod : Nat := 4294967296

/-- Reduce to a 32-bit word. -/
def w32 (n : Nat) : Nat := n % wordMod

/-- 32-bit right rotation (input assumed < 2^32). -/
def rotr32 (n x : Nat) : Nat := w32 ((x >>> n) ||| (x <<< (32 - n)))

/-- All-ones 32-bit mask, used for bitwise complement. -/
def mask32 : Nat := 4294967295

/-- The 64 SHA-256 round constants of FIPS 180-4 (decimal, 5 per row). -/
def sha256K : List Nat :=
  [1116352408, 1899447441, 3049323471, 3921009573, 961987163,
   1508970993, 2453635748, 2870763221, 3624381080, 310598401,
   607225278, 1426881987, 1925078388, 2162078206, 2614888103,
   3248222580, 3835390401, 4022224774, 264347078, 604807628,
   770255983, 1249150122, 1555081692, 1996064986, 2554220882,
   2821834349, 2952996808, 3210313671, 3336571891, 3584528711,
   113926993, 338241895, 666307205, 773529912, 1294757372,
   1396182291, 1695183700, 1986661051, 2177026350, 2456956037,
   2730485921, 2820302411, 3259730800, 3345764771, 3516065817,
   3600352804, 4094571909, 275423344, 430227734, 506948616,
   659060556, 883997877, 958139571, 1322822218, 1537002063,
   1747873779, 1955562222, 2024104815, 2227730452, 2361852424,
   2428436474, 2756734187, 3204031479, 3329325298]

/-- The eight SHA-256 initial hash words of FIPS 180-4 (decimal). -/
def sha256H0 : List Nat :=
  [1779033703, 3144134277, 1013904242, 2773480762,
   1359893119, 2600822924, 528734635, 1541459225]

/-- Big-endian byte encoding of `n` on `k` bytes. -/
def natToBytesBE : Nat → Nat → List Nat
  | 0, _ => []
  | j + 1, n => natToBytesBE j (n / 256) ++ [n % 256]

/-- SHA-256 padding: append 0x80, zero bytes, and the 64-bit big-endian bit length. -/
def padMessage (msg : List Nat) : List Nat :=
  let len := msg.length
  let zeros := (119 - len % 64) % 64
  msg ++ [128] ++ List.replicate zeros 0 ++ natToBytesBE 8 (len * 8)

/-- Combine bytes, four at a time big-endian, into 32-bit words. -/
def bytesToWords : List Nat → List Nat
  | b0 :: b1 :: b2 :: b3 :: rest =>
      (((b0 * 256 + b1) * 256 + b2) * 256 + b3) :: bytesToWords rest
  | _ => []

/-- Split a byte list into 64-byte blocks (fuel-driven structural recursion). -/
def chunksAux : Nat → List Nat → List (List Nat)
  | 0, _ => []
  | fuel + 1, l =>
      match l with
      | [] => []
      | _ :: _ => l.take 64 :: chunksAux fuel (l.drop 64)

/-- Split a byte list into 64-byte blocks. -/
def chunks64 (l : List Nat) : List (List Nat) := chunksAux l.length l

/-- The next word of the SHA-256 message schedule, from the words so far. -/
def nextScheduleWord (w : List Nat) : Nat :=
  let i := w.length
  let x15 := w.getD (i - 15) 0
  let x2 := w.getD (i - 2) 0
  let s0 := (rotr32 7 x15) ^^^ (rotr32 18 x15) ^^^ (x15 >>> 3)
  let s1 := (rotr32 17 x2) ^^^ (rotr32 19 x2) ^^^ (x2 >>> 10)
  (w.getD (i - 16) 0 + s0 + w.getD (i - 7) 0 + s1) % wordMod

/-- Extend a message schedule by `j` further words. -/
def extendSchedule : Nat → List Nat → List Nat
  | 0, w => w
  | j + 1, w => extendSchedule j (w ++ [nextScheduleWord w])

/-- The 64-word message schedule of one 64-byte block. -/
def messageSchedule (block : List Nat) : List Nat :=
  extendSchedule 48 (bytesToWords block)

/-- One round of the SHA-256 compression function on state `[a,b,c,d,e,f,g,h]`. -/
def compressStep (st : List Nat) (kw : Nat × Nat) : List Nat :=
  let a := st.getD 0 0
  let b := st.getD 1 0
  let c := st.getD 2 0
  let d := st.getD 3 0
  let e := st.getD 4 0
  let f := st.getD 5 0
  let g := st.getD 6 0
  let h := st.getD 7 0
  let s1 := (rotr32 6 e) ^^^ (rotr32 11 e) ^^^ (rotr32 25 e)
  let ch := (e &&& f) ^^^ ((e ^^^ mask32) &&& g)
  let t1 := (h + s1 + ch + kw.1 + kw.2) % wordMod
  let s0 := (rotr32 2 a) ^^^ (rotr32 13 a) ^^^ (rotr32 22 a)
  let maj := (a &&& b) ^^^ (a &&& c) ^^^ (b &&& c)
  let t2 := (s0 + maj) % wordMod
  [(t1 + t2) % wordMod, a, b, c, (d + t1) % wordMod, e, f, g]

/-- Process one 64-byte block, updating the eight-word hash state. -/
def processBlock (st : List Nat) (block : List Nat) : List Nat :=
  let w := messageSchedule block
  let st2 := (sha256K.zip w).foldl compressStep st
  (st.zip st2).map (fun p => (p.1 + p.2) % wordMod)

/-- The SHA-256 digest of a byte list, as eight 32-bit words. -/
def sha256Words (msg : List Nat) : List Nat :=
  (chunks64 (padMessage msg)).foldl processBlock sha256H0

/-- Lower-case hex digit for a nibble. -/
def hexDigit (n : Nat) : Char :=
  if n < 10 then Char.ofNat (48 + n) else Char.ofNat (87 + n)

/-- Big-endian hex digits of `n` on `k` nibbles. -/
def natToHexBE : Nat → Nat → List Char
  | 0, _ => []
  | j + 1, n => natToHexBE j (n / 16) ++ [hexDigit (n % 16)]

/-- Eight-hex-digit rendering of a 32-bit word. -/
def wordToHex (n : Nat) : String := String.mk (natToHexBE 8 n)

/-- The hex digest of SHA-256 over a byte list, as `hashlib.sha256(msg).hexdigest()`. -/
def sha256_hexdigest (msg : List Nat) : String :=
  String.join ((sha256Words msg).map wordToHex)

/-- ASCII lower-casing of one character. -/
def asciiLower (c : Char) : Char :=
  if 65 ≤ c.toNat ∧ c.toNat ≤ 90 then Char.ofNat (c.toNat + 32) else c

/-- `str.lower()` on the ASCII strings the script compares (kept structurally
recursive so it evaluates in the kernel). -/
def strLower (s : String) : String := String.mk (s.data.map asciiLower)

example : sha256_hexdigest [] =
    "e3b0c44298fc1c149afbf4c8996fb92427ae41e4649b934ca495991b7852b855" := by decide

example : sha256_hexdigest [97, 98, 99] =
    "ba7816bf8f01cfea414140de5dae2223b00361a396177a9cb410ff61f20015ad" := by decide

/-! ## The program model -/

/-- A bundle descriptor, one entry of `CERTIFICATE_BUNDLES`. -/
structure Bundle where
  key : String
  url : String
  filename : String
  expected_sha256 : String
  deriving DecidableEq, Repr

/-- The `"aws-rds"` entry of the bundle table. -/
def awsBundle : Bundle :=
  { key := "aws-rds",
    url := "https://truststore.pki.rds.amazonaws.com/global/global-bundle.pem",
    filename := "aws-rds-global-bundle.pem",
    expected_sha256 := "e5bb2084ccf45087bda1c9bffdea0eb15ee67f0b91646106e466714f9de3c7e3" }

/-- The `"azure-database"` entry of the bundle table. -/
def azureBundle : Bundle :=
  { key := "azure-database",
    url := "https://www.digicert.com/CACerts/BaltimoreCyberTrustRoot.crt.pem",
    filename := "azure-baltimore-root.pem",
    expected_sha256 := "285963b0968a2204019db351ef5d1c97d732f1c4de00d3ae035e8987c954f945" }

/-- The static bundle table of the script, in iteration order. -/
def CERTIFICATE_BUNDLES : List Bundle := [awsBundle, azureBundle]

/-- Outcome of `urllib.request.urlopen` on a URL: either an HTTP response with a
status and body, or a raised `URLError`/`IOError` with a message. -/
inductive HttpResult where
  | response (status : Nat) (body : List Nat)
  | failure (message : String)
  deriving DecidableEq

/-- The network, modelled as a deterministic oracle from URL to outcome. -/
def Net : Type := String → HttpResult

/-- The filesystem's files: path → optional contents. -/
def Fs : Type := String → Option (List Nat)

/-- The empty filesystem. -/
def Fs.empty : Fs := fun _ => none

/-- Write a file (`open(path, 'wb'); f.write(content)`): full overwrite. -/
def fsWrite (fs : Fs) (p : String) (c : List Nat) : Fs :=
  fun q => if q = p then some c else fs q

/-- Delete a file (`path.unlink(missing_ok=True)`): no-op when absent. -/
def fsUnlink (fs : Fs) (p : String) : Fs :=
  fun q => if q = p then none else fs q

/-- `download_certificate_bundle(url, output_path)`: on HTTP status other than
200 or on a transport error, prints a diagnostic and returns `(False, b"")`
without writing; on status 200 writes the body to `output_path` and returns
`(True, content)`.  The result is `((success, content), fs afterwards,
printed lines)`. -/
def download_certificate_bundle (net : Net) (url : String) (output_path : String)
    (fs : Fs) : (Bool × List Nat) × Fs × List String :=
  match net url with
  | .response status body =>
      if status ≠ 200 then
        ((false, []), fs, ["Error: HTTP " ++ toString status ++ " when downloading " ++ url])
      else
        ((true, body), fsWrite fs output_path body, [])
  | .failure e =>
      ((false, []), fs, ["Error downloading " ++ url ++ ": " ++ e])

/-- `verify_hash(content, expected_hash)`: SHA-256 the content, compare hex
digests case-insensitively; on mismatch print expected and actual digests.
Returns `(boolean, printed lines)`. -/
def verify_hash (content : List Nat) (expected_hash : String) : Bool × List String :=
  let actual_hash := sha256_hexdigest content
  if strLower actual_hash ≠ strLower expected_hash then
    (false, ["Hash verification failed for content",
             "Expected: " ++ expected_hash,
             "Actual:   " ++ actual_hash])
  else
    (true, [])

/-- Destination path of a bundle: `certs_dir / bundle["filename"]`, with the
`certs` directory taken relative to the working directory. -/
def bundlePath (b : Bundle) : String := "certs/" ++ b.filename

/-- State threaded through the `for` loop of `main`. -/
structure RunState where
  files : Fs
  log : List String
  success_count : Nat

/-- One iteration of the `for bundle_key, bundle in CERTIFICATE_BUNDLES.items()`
loop: download (which writes the file), on failure continue; verify the hash,
on mismatch unlink the file and continue; otherwise report and count. -/
def processBundle (net : Net) (st : RunState) (b : Bundle) : RunState :=
  let bundle_path := bundlePath b
  let r := download_certificate_bundle net b.url bundle_path st.files
  let success := r.1.1
  let content := r.1.2
  let fs1 := r.2.1
  let dlog := r.2.2
  if success = false then
    { files := fs1, log := st.log ++ dlog, success_count := st.success_count }
  else
    let v := verify_hash content b.expected_sha256
    if v.1 = false then
      { files := fsUnlink fs1 bundle_path, log := st.log ++ dlog ++ v.2,
        success_count := st.success_count }
    else
      { files := fs1, log := st.log ++ dlog ++ v.2 ++ ["Downloaded: " ++ bundle_path],
        success_count := st.success_count + 1 }

/-- Result of a whole run of `main`: process exit code, final files and
directories, console output, and the loop's success count. -/
structure MainResult where
  exitCode : Nat
  files : Fs
  dirs : String → Bool
  log : List String
  success_count : Nat

/-- `certs_dir.mkdir(parents=True, exist_ok=True)`: record the directory. -/
def mkdirCerts (dirs : String → Bool) : String → Bool :=
  fun d => if d = "certs" then true else dirs d

/-- The driver of `main`, parametric in the bundle table it iterates: make the
`certs` directory, process every bundle, then exit 1 with a message when no
bundle succeeded, else print the summary and exit 0. -/
def mainWith (bundles : List Bundle) (net : Net) (fs0 : Fs)
    (dirs0 : String → Bool) : MainResult :=
  let dirs1 := mkdirCerts dirs0
  let st := bundles.foldl (processBundle net) ⟨fs0, [], 0⟩
  if st.success_count = 0 then
    { exitCode := 1, files := st.files, dirs := dirs1,
      log := st.log ++ ["No certificate bundles were successfully downloaded."],
      success_count := 0 }
  else
    { exitCode := 0, files := st.files, dirs := dirs1,
      log := st.log ++ ["Successfully downloaded " ++ toString st.success_count ++
                        " certificate bundles to certs"],
      success_count := st.success_count }

/-- `main()` of the script, over its static bundle table.  (Named `main'`
because Lean reserves `main` for an executable entry point.) -/
def main' (net : Net) (fs0 : Fs) (dirs0 : String → Bool) : MainResult :=
  mainWith CERTIFICATE_BUNDLES net fs0 dirs0

/-- Whether a bundle's download and verification both succeed under `net`:
an HTTP 200 response whose body hashes to the pinned digest. -/
def bundleSucceeds (net : Net) (b : Bundle) : Bool :=
  match net b.url with
  | .response status body =>
      status = 200 && strLower (sha256_hexdigest body) = strLower b.expected_sha256
  | .failure _ => false

/-- The effect of processing bundle `b` on the file at its own destination
path: unchanged on download failure, replaced by the body on verified
success, removed on digest mismatch. -/
def pathEffect (net : Net) (b : Bundle) (v : Option (List Nat)) : Option (List Nat) :=
  match net b.url with
  | .response status body =>
      if status ≠ 200 then v
      else if strLower (sha256_hexdigest body) ≠ strLower b.expected_sha256 then none
      else some body
  | .failure _ => v

/-! ## Helper lemmas -/

lemma processBundle_files_point (net : Net) (st : RunState) (b : Bundle) (p : String) :
    (processBundle net st b).files p =
      if p = bundlePath b then pathEffect net b (st.files p) else st.files p := by
  cases hnet : net b.url with
  | response status body =>
      by_cases h200 : status = 200
      · subst h200
        by_cases hh : strLower (sha256_hexdigest body) = strLower b.expected_sha256
        · simp [processBundle, download_certificate_bundle, verify_hash, pathEffect,
                hnet, hh, fsWrite]
        · by_cases hp : p = bundlePath b <;>
            simp [processBundle, download_certificate_bundle, verify_hash, pathEffect,
                  hnet, hh, hp, fsWrite, fsUnlink]
      · simp [processBundle, download_certificate_bundle, pathEffect, hnet, h200]
  | failure m =>
      simp [processBundle, download_certificate_bundle, pathEffect, hnet]

lemma processBundle_success_count (net : Net) (st : RunState) (b : Bundle) :
    (processBundle net st b).success_count =
      st.success_count + (if bundleSucceeds net b = true then 1 else 0) := by
  cases hnet : net b.url with
  | response status body =>
      by_cases h200 : status = 200
      · subst h200
        by_cases hh : strLower (sha256_hexdigest body) = strLower b.expected_sha256
        · simp [processBundle, download_certificate_bundle, verify_hash, bundleSucceeds,
                hnet, hh]
        · simp [processBundle, download_certificate_bundle, verify_hash, bundleSucceeds,
                hnet, hh]
      · simp [processBundle, download_certificate_bundle, bundleSucceeds, hnet, h200]
  | failure m =>
      simp [processBundle, download_certificate_bundle, bundleSucceeds, hnet]

lemma processBundle_log_grows (net : Net) (st : RunState) (b : Bundle) :
    st.log.length < (processBundle net st b).log.length := by
  cases hnet : net b.url with
  | response status body =>
      by_cases h200 : status = 200
      · subst h200
        by_cases hh : strLower (sha256_hexdigest body) = strLower b.expected_sha256
        · simp [processBundle, download_certificate_bundle, verify_hash, hnet, hh]
        · simp [processBundle, download_certificate_bundle, verify_hash, hnet, hh]
      · simp [processBundle, download_certificate_bundle, hnet, h200]
  | failure m =>
      simp [processBundle, download_certificate_bundle, hnet]

lemma pathEffect_of_fail (net : Net) (b : Bundle) (h : bundleSucceeds net b = false) :
    pathEffect net b none = none := by
  cases hnet : net b.url with
  | response status body =>
      by_cases h200 : status = 200
      · subst h200
        by_cases hh : strLower (sha256_hexdigest body) = strLower b.expected_sha256
        · simp [bundleSucceeds, hnet, hh] at h
        · simp [pathEffect, hnet, hh]
      · simp [pathEffect, hnet, h200]
  | failure m => simp [pathEffect, hnet]

lemma pathEffect_of_success (net : Net) (b : Bundle) (body : List Nat) (v : Option (List Nat))
    (hnet : net b.url = .response 200 body)
    (hh : strLower (sha256_hexdigest body) = strLower b.expected_sha256) :
    pathEffect net b v = some body := by
  simp [pathEffect, hnet, hh]

lemma pathEffect_idem (net : Net) (b : Bundle) (v : Option (List Nat)) :
    pathEffect net b (pathEffect net b v) = pathEffect net b v := by
  cases hnet : net b.url with
  | response status body =>
      by_cases h200 : status = 200
      · subst h200
        by_cases hh : strLower (sha256_hexdigest body) = strLower b.expected_sha256
        · simp [pathEffect, hnet, hh]
        · simp [pathEffect, hnet, hh]
      · simp [pathEffect, hnet, h200]
  | failure m => simp [pathEffect, hnet]

lemma bundleSucceeds_iff (net : Net) (b : Bundle) :
    bundleSucceeds net b = true ↔
      ∃ body, net b.url = .response 200 body ∧
        strLower (sha256_hexdigest body) = strLower b.expected_sha256 := by
  cases hnet : net b.url with
  | response status body =>
      simp only [bundleSucceeds, hnet, Bool.and_eq_true, decide_eq_true_eq]
      constructor
      · rintro ⟨h200, hh⟩
        exact ⟨body, by rw [h200], hh⟩
      · rintro ⟨body2, heq, hh⟩
        obtain ⟨h200, hbody⟩ := HttpResult.response.inj heq
        exact ⟨h200, hbody ▸ hh⟩
  | failure m =>
      simp [bundleSucceeds, hnet]

lemma foldl_files_untouched (net : Net) (l : List Bundle) (p : String)
    (h : ∀ b ∈ l, bundlePath b ≠ p) :
    ∀ st : RunState, (l.foldl (processBundle net) st).files p = st.files p := by
  induction l with
  | nil => intro st; rfl
  | cons c rest ih =>
      intro st
      rw [List.foldl_cons, ih (fun b hb => h b (List.mem_cons_of_mem _ hb)),
          processBundle_files_point]
      exact if_neg (fun hp => h c (List.mem_cons_self c rest) hp.symm)

lemma foldl_success_count (net : Net) (l : List Bundle) :
    ∀ st : RunState, (l.foldl (processBundle net) st).success_count =
      st.success_count + l.countP (fun b => bundleSucceeds net b) := by
  induction l with
  | nil => intro st; simp
  | cons c rest ih =>
      intro st
      rw [List.foldl_cons, ih, processBundle_success_count, List.countP_cons]
      by_cases hc : bundleSucceeds net c = true
      · simp [hc]; omega
      · simp [hc]

lemma foldl_none_preserved (net : Net) (l : List Bundle) (p : String)
    (hfail : ∀ b ∈ l, bundleSucceeds net b = false) :
    ∀ st : RunState, st.files p = none →
      (l.foldl (processBundle net) st).files p = none := by
  induction l with
  | nil => intro st h; exact h
  | cons c rest ih =>
      intro st h
      rw [List.foldl_cons]
      refine ih (fun b hb => hfail b (List.mem_cons_of_mem _ hb)) _ ?_
      rw [processBundle_files_point]
      by_cases hp : p = bundlePath c
      · rw [if_pos hp, h, pathEffect_of_fail net c (hfail c (List.mem_cons_self c rest))]
      · rw [if_neg hp]; exact h

lemma foldl_files_success (net : Net) (l : List Bundle) (b : Bundle) (body : List Nat)
    (hmem : b ∈ l) (hnodup : (l.map bundlePath).Nodup)
    (hnet : net b.url = .response 200 body)
    (hh : strLower (sha256_hexdigest body) = strLower b.expected_sha256) :
    ∀ st : RunState, (l.foldl (processBundle net) st).files (bundlePath b) = some body := by
  induction l with
  | nil => cases hmem
  | cons c rest ih =>
      intro st
      rw [List.map_cons, List.nodup_cons] at hnodup
      rcases List.mem_cons.mp hmem with hbc | hbr
      · subst hbc
        rw [List.foldl_cons,
            foldl_files_untouched net rest (bundlePath b)
              (fun b2 hb2 heq => hnodup.1 (heq ▸ List.mem_map_of_mem bundlePath hb2)),
            processBundle_files_point, if_pos rfl,
            pathEffect_of_success net b body _ hnet hh]
      · rw [List.foldl_cons]
        exact ih hbr hnodup.2 _

lemma foldl_success_count0 (bundles : List Bundle) (net : Net) (fs0 : Fs) :
    (bundles.foldl (processBundle net) ⟨fs0, [], 0⟩).success_count =
      bundles.countP (fun b => bundleSucceeds net b) := by
  simpa using foldl_success_count net bundles ⟨fs0, [], 0⟩

lemma mainWith_files (bundles : List Bundle) (net : Net) (fs0 : Fs) (dirs0 : String → Bool) :
    (mainWith bundles net fs0 dirs0).files =
      (bundles.foldl (processBundle net) ⟨fs0, [], 0⟩).files := by
  unfold mainWith
  dsimp only
  split <;> rfl

lemma mainWith_success_count (bundles : List Bundle) (net : Net) (fs0 : Fs)
    (dirs0 : String → Bool) :
    (mainWith bundles net fs0 dirs0).success_count =
      bundles.countP (fun b => bundleSucceeds net b) := by
  have hc := foldl_success_count0 bundles net fs0
  unfold mainWith
  dsimp only
  split
  · next h => rw [← hc, h]
  · exact hc

lemma mainWith_exitCode (bundles : List Bundle) (net : Net) (fs0 : Fs)
    (dirs0 : String → Bool) :
    (mainWith bundles net fs0 dirs0).exitCode =
      if bundles.countP (fun b => bundleSucceeds net b) = 0 then 1 else 0 := by
  have hc := foldl_success_count0 bundles net fs0
  unfold mainWith
  dsimp only
  split
  · next h =>
      have hz : bundles.countP (fun b => bundleSucceeds net b) = 0 := hc ▸ h
      simp [hz]
  · next h =>
      have hz : bundles.countP (fun b => bundleSucceeds net b) ≠ 0 :=
        fun hz => h (by rw [hc]; exact hz)
      simp [hz]

lemma mainWith_log_all_fail (bundles : List Bundle) (net : Net) (fs0 : Fs)
    (dirs0 : String → Bool)
    (h : bundles.countP (fun b => bundleSucceeds net b) = 0) :
    "No certificate bundles were successfully downloaded." ∈
      (mainWith bundles net fs0 dirs0).log := by
  have hc := foldl_success_count0 bundles net fs0
  unfold mainWith
  dsimp only
  rw [if_pos (by rw [hc]; exact h)]
  exact List.mem_append_right _ (List.mem_singleton.mpr rfl)

lemma mainWith_log_summary (bundles : List Bundle) (net : Net) (fs0 : Fs)
    (dirs0 : String → Bool)
    (h : bundles.countP (fun b => bundleSucceeds net b) ≠ 0) :
    ("Successfully downloaded " ++ toString (bundles.countP (fun b => bundleSucceeds net b)) ++
      " certificate bundles to certs") ∈ (mainWith bundles net fs0 dirs0).log := by
  have hc := foldl_success_count0 bundles net fs0
  unfold mainWith
  dsimp only
  rw [if_neg (by rw [hc]; exact h), ← hc]
  exact List.mem_append_right _ (List.mem_singleton.mpr rfl)

lemma awsPath_ne_azurePath : bundlePath awsBundle ≠ bundlePath azureBundle := by
  decide

lemma main_files_point (net : Net) (fs0 : Fs) (dirs0 : String → Bool) (p : String) :
    (main' net fs0 dirs0).files p =
      if p = bundlePath azureBundle then pathEffect net azureBundle (fs0 p)
      else if p = bundlePath awsBundle then pathEffect net awsBundle (fs0 p)
      else fs0 p := by
  have h1 : (main' net fs0 dirs0).files p =
      (CERTIFICATE_BUNDLES.foldl (processBundle net) ⟨fs0, [], 0⟩).files p :=
    congrFun (mainWith_files CERTIFICATE_BUNDLES net fs0 dirs0) p
  have h2 : CERTIFICATE_BUNDLES.foldl (processBundle net) ⟨fs0, [], 0⟩ =
      processBundle net (processBundle net ⟨fs0, [], 0⟩ awsBundle) azureBundle := rfl
  rw [h1, h2, processBundle_files_point, processBundle_files_point]
  by_cases hz : p = bundlePath azureBundle
  · rw [if_pos hz, if_pos hz,
        if_neg (fun ha : p = bundlePath awsBundle => awsPath_ne_azurePath (ha ▸ hz))]
  · rw [if_neg hz, if_neg hz]

/-- One of the three per-bundle error kinds of the script: a transport
error, a non-200 HTTP status, or a digest mismatch. -/
def bundleFailsKind (net : Net) (b : Bundle) : Prop :=
  (∃ m, net b.url = .failure m) ∨
  (∃ s body, net b.url = .response s body ∧ s ≠ 200) ∨
  (∃ body, net b.url = .response 200 body ∧
    strLower (sha256_hexdigest body) ≠ strLower b.expected_sha256)

lemma bundleSucceeds_false_of_kind (net : Net) (b : Bundle)
    (h : bundleFailsKind net b) : bundleSucceeds net b = false := by
  rcases h with ⟨m, hm⟩ | ⟨s, body, hs, hne⟩ | ⟨body, hb, hmis⟩
  · simp [bundleSucceeds, hm]
  · simp [bundleSucceeds, hs, hne]
  · simp [bundleSucceeds, hb, hmis]

/-! ## The claims -/

/-- C1: For every bundle descriptor whose downloaded bytes hash (SHA-256) to
the expected digest, after the run the output file at `certs/<filename>`
exists and its contents equal the downloaded bytes exactly. -/
theorem C1_verified_roundtrip (bundles : List Bundle) (net : Net) (fs0 : Fs)
    (dirs0 : String → Bool) (b : Bundle) (body : List Nat)
    (hmem : b ∈ bundles) (hnodup : (bundles.map bundlePath).Nodup)
    (hnet : net b.url = .response 200 body)
    (hh : strLower (sha256_hexdigest body) = strLower b.expected_sha256) :
    (mainWith bundles net fs0 dirs0).files (bundlePath b) = some body := by
  rw [congrFun (mainWith_files bundles net fs0 dirs0) (bundlePath b)]
  exact foldl_files_success net bundles b body hmem hnodup hnet hh _

theorem C1_verified_roundtrip_witness :
    (mainWith
      [⟨"test", "https://example.com/a", "a.pem",
        "e3b0c44298fc1c149afbf4c8996fb92427ae41e4649b934ca495991b7852b855"⟩]
      (fun _ => HttpResult.response 200 []) Fs.empty (fun _ => false)).files
      (bundlePath ⟨"test", "https://example.com/a", "a.pem",
        "e3b0c44298fc1c149afbf4c8996fb92427ae41e4649b934ca495991b7852b855"⟩) = some [] :=
  C1_verified_roundtrip _ _ _ _ _ [] (by decide) (by decide) rfl (by decide)

/-- C2: For every bundle descriptor whose downloaded bytes do not hash to the
expected digest, no file remains at that bundle's destination path after the
run: the written file is removed on verification failure. -/
theorem C2_mismatch_removed (net : Net) (fs0 : Fs) (dirs0 : String → Bool)
    (b : Bundle) (body : List Nat)
    (hmem : b ∈ CERTIFICATE_BUNDLES)
    (hnet : net b.url = .response 200 body)
    (hmis : strLower (sha256_hexdigest body) ≠ strLower b.expected_sha256) :
    (main' net fs0 dirs0).files (bundlePath b) = none := by
  have hpe : pathEffect net b (fs0 (bundlePath b)) = none := by
    simp [pathEffect, hnet, hmis]
  rw [main_files_point]
  simp only [CERTIFICATE_BUNDLES, List.mem_cons, List.mem_singleton,
    List.not_mem_nil, or_false] at hmem
  rcases hmem with rfl | rfl
  · rw [if_neg awsPath_ne_azurePath, if_pos rfl]
    exact hpe
  · rw [if_pos rfl]
    exact hpe

theorem C2_mismatch_removed_witness :
    (main' (fun _ => HttpResult.response 200 []) Fs.empty (fun _ => false)).files
      (bundlePath awsBundle) = none :=
  C2_mismatch_removed _ _ _ awsBundle [] (by decide) rfl (by decide)

/-- C3: For every error kind (transport failure, non-200 HTTP status, digest
mismatch), the error is non-fatal for that bundle: it is logged (the console
log strictly grows), any partial file left at the destination path is deleted
(starting with no file there, none remains), no other path is touched, and
processing continues with the next descriptors of the loop. -/
theorem C3_errors_nonfatal (net : Net) (st : RunState) (b : Bundle)
    (rest : List Bundle) (hfail : bundleFailsKind net b) :
    (processBundle net st b).success_count = st.success_count ∧
    st.log.length < (processBundle net st b).log.length ∧
    (st.files (bundlePath b) = none →
      (processBundle net st b).files (bundlePath b) = none) ∧
    (∀ p, p ≠ bundlePath b → (processBundle net st b).files p = st.files p) ∧
    (b :: rest).foldl (processBundle net) st =
      rest.foldl (processBundle net) (processBundle net st b) := by
  have hf := bundleSucceeds_false_of_kind net b hfail
  refine ⟨?_, processBundle_log_grows net st b, ?_, ?_, rfl⟩
  · rw [processBundle_success_count]
    simp [hf]
  · intro h0
    rw [processBundle_files_point, if_pos rfl, h0, pathEffect_of_fail net b hf]
  · intro p hp
    rw [processBundle_files_point, if_neg hp]

theorem C3_errors_nonfatal_witness :
    (processBundle (fun _ => HttpResult.failure "connection timed out")
      ⟨Fs.empty, [], 0⟩ awsBundle).success_count = 0 :=
  (C3_errors_nonfatal (fun _ => HttpResult.failure "connection timed out")
    ⟨Fs.empty, [], 0⟩ awsBundle [azureBundle]
    (Or.inl ⟨"connection timed out", rfl⟩)).1

/-- C4: The process exits with status 0 if and only if at least one bundle
succeeds, and with status 1 if every bundle's download or verification
failed; in the all-fail case nothing is written (every path empty before the
run is empty after it) and an explanatory message is printed. -/
theorem C4_exit_status (net : Net) (fs0 : Fs) (dirs0 : String → Bool) :
    ((main' net fs0 dirs0).exitCode = 0 ↔
       ∃ b ∈ CERTIFICATE_BUNDLES, bundleSucceeds net b = true) ∧
    ((∀ b ∈ CERTIFICATE_BUNDLES, bundleSucceeds net b = false) →
       (main' net fs0 dirs0).exitCode = 1 ∧
       (∀ p, fs0 p = none → (main' net fs0 dirs0).files p = none) ∧
       "No certificate bundles were successfully downloaded." ∈
         (main' net fs0 dirs0).log) := by
  constructor
  · rw [show main' net fs0 dirs0 = mainWith CERTIFICATE_BUNDLES net fs0 dirs0 from rfl,
        mainWith_exitCode]
    constructor
    · intro h
      by_cases hz : CERTIFICATE_BUNDLES.countP (fun b => bundleSucceeds net b) = 0
      · rw [if_pos hz] at h
        exact absurd h one_ne_zero
      · exact List.countP_pos_iff.mp (Nat.pos_of_ne_zero hz)
    · rintro ⟨b, hb, hs⟩
      have hpos : 0 < CERTIFICATE_BUNDLES.countP (fun b => bundleSucceeds net b) :=
        List.countP_pos_iff.mpr ⟨b, hb, hs⟩
      rw [if_neg (Nat.pos_iff_ne_zero.mp hpos)]
  · intro hall
    have hz : CERTIFICATE_BUNDLES.countP (fun b => bundleSucceeds net b) = 0 :=
      List.countP_eq_zero.mpr (fun b hb => by rw [hall b hb]; exact Bool.false_ne_true)
    refine ⟨?_, ?_, mainWith_log_all_fail _ _ _ _ hz⟩
    · rw [show main' net fs0 dirs0 = mainWith CERTIFICATE_BUNDLES net fs0 dirs0 from rfl,
          mainWith_exitCode, if_pos hz]
    · intro p hp
      rw [show main' net fs0 dirs0 = mainWith CERTIFICATE_BUNDLES net fs0 dirs0 from rfl,
          congrFun (mainWith_files CERTIFICATE_BUNDLES net fs0 dirs0) p]
      exact foldl_none_preserved net CERTIFICATE_BUNDLES p hall ⟨fs0, [], 0⟩ hp

theorem C4_exit_status_witness :
    (main' (fun _ => HttpResult.failure "unreachable") Fs.empty (fun _ => false)).exitCode
      = 1 :=
  ((C4_exit_status (fun _ => HttpResult.failure "unreachable") Fs.empty
    (fun _ => false)).2 (by decide)).1

/-- C5 (counterexample): the claim that each pinned digest in the static
bundle table is longer than 64 hex characters is false: the table's digests
are not longer than 64 characters. -/
theorem C5_counterexample :
    ¬ (∀ b ∈ CERTIFICATE_BUNDLES, 64 < b.expected_sha256.length) := by
  decide

/-- C5 (amended): each pinned digest in the static bundle table is exactly 64
characters long and consists only of lower-case hex digits — the standard
length of a hex-encoded SHA-256 digest, not longer. -/
theorem C5_digest_lengths :
    CERTIFICATE_BUNDLES.all
      (fun b => b.expected_sha256.length == 64 &&
        b.expected_sha256.data.all (fun c => "0123456789abcdef".data.contains c)) = true := by
  decide

/-- C6: `verify_hash(content, expected)` returns true exactly when the hex
encoding of the SHA-256 digest of the raw bytes equals the expected digest
under case-insensitive comparison; on mismatch it prints both the expected
and the actual digest. -/
theorem C6_verify_hash_spec (content : List Nat) (expected : String) :
    ((verify_hash content expected).1 = true ↔
       strLower (sha256_hexdigest content) = strLower expected) ∧
    (strLower (sha256_hexdigest content) ≠ strLower expected →
       ("Expected: " ++ expected) ∈ (verify_hash content expected).2 ∧
       ("Actual:   " ++ sha256_hexdigest content) ∈ (verify_hash content expected).2) := by
  by_cases h : strLower (sha256_hexdigest content) = strLower expected
  · simp [verify_hash, h]
  · simp [verify_hash, h]

theorem C6_verify_hash_spec_witness :
    ("Expected: " ++ "0000000000000000000000000000000000000000000000000000000000000000") ∈
      (verify_hash []
        "0000000000000000000000000000000000000000000000000000000000000000").2 :=
  ((C6_verify_hash_spec []
    "0000000000000000000000000000000000000000000000000000000000000000").2
    (by decide)).1

/-- C7: If, of two configured bundles with distinct destination paths, exactly
one succeeds (download plus verification) and the other fails, the process
exits with status 0, the reported summary count equals 1, and exactly one
bundle file exists under `certs/` (starting from an empty filesystem, a path
holds a file iff it is the successful bundle's destination). -/
theorem C7_one_of_two (b1 b2 : Bundle) (net : Net) (fs0 : Fs) (dirs0 : String → Bool)
    (hpath : bundlePath b1 ≠ bundlePath b2)
    (hone : (bundleSucceeds net b1 = true ∧ bundleSucceeds net b2 = false) ∨
            (bundleSucceeds net b1 = false ∧ bundleSucceeds net b2 = true)) :
    (mainWith [b1, b2] net fs0 dirs0).exitCode = 0 ∧
    (mainWith [b1, b2] net fs0 dirs0).success_count = 1 ∧
    ("Successfully downloaded " ++ toString (1 : Nat) ++ " certificate bundles to certs") ∈
      (mainWith [b1, b2] net fs0 dirs0).log ∧
    (∀ p, fs0 p = none →
      (((mainWith [b1, b2] net fs0 dirs0).files p ≠ none) ↔
        ((p = bundlePath b1 ∧ bundleSucceeds net b1 = true) ∨
         (p = bundlePath b2 ∧ bundleSucceeds net b2 = true)))) := by
  have hcount : [b1, b2].countP (fun b => bundleSucceeds net b) = 1 := by
    rcases hone with ⟨h1, h2⟩ | ⟨h1, h2⟩ <;>
      simp [List.countP_cons, List.countP_nil, h1, h2]
  refine ⟨?_, ?_, ?_, ?_⟩
  · rw [mainWith_exitCode, hcount]
    norm_num
  · rw [mainWith_success_count, hcount]
  · have hmem := mainWith_log_summary [b1, b2] net fs0 dirs0 (by rw [hcount]; exact one_ne_zero)
    rwa [hcount] at hmem
  · intro p hp
    rw [congrFun (mainWith_files [b1, b2] net fs0 dirs0) p,
        show [b1, b2].foldl (processBundle net) ⟨fs0, [], 0⟩ =
          processBundle net (processBundle net ⟨fs0, [], 0⟩ b1) b2 from rfl,
        processBundle_files_point, processBundle_files_point]
    dsimp only
    by_cases hp2 : p = bundlePath b2
    · subst hp2
      rw [if_pos rfl, if_neg (Ne.symm hpath)]
      rcases hone with ⟨h1, h2⟩ | ⟨h1, h2⟩
      · rw [hp, pathEffect_of_fail net b2 h2]
        simp [Ne.symm hpath, h2]
      · obtain ⟨body, hnet, hh⟩ := (bundleSucceeds_iff net b2).mp h2
        rw [pathEffect_of_success net b2 body _ hnet hh]
        simp [Ne.symm hpath, h2]
    · rw [if_neg hp2]
      by_cases hp1 : p = bundlePath b1
      · subst hp1
        rw [if_pos rfl]
        rcases hone with ⟨h1, h2⟩ | ⟨h1, h2⟩
        · obtain ⟨body, hnet, hh⟩ := (bundleSucceeds_iff net b1).mp h1
          rw [pathEffect_of_success net b1 body _ hnet hh]
          simp [h1, hp2]
        · rw [hp, pathEffect_of_fail net b1 h1]
          simp [h1, h2, hp2]
      · rw [if_neg hp1, hp]
        simp [hp1, hp2]

theorem C7_one_of_two_witness :
    (mainWith
      [⟨"t1", "https://example.com/1", "one.pem",
        "e3b0c44298fc1c149afbf4c8996fb92427ae41e4649b934ca495991b7852b855"⟩,
       ⟨"t2", "https://example.com/2", "two.pem",
        "0000000000000000000000000000000000000000000000000000000000000000"⟩]
      (fun u => if u = "https://example.com/1" then HttpResult.response 200 []
                else HttpResult.failure "down")
      Fs.empty (fun _ => false)).exitCode = 0 :=
  (C7_one_of_two
    ⟨"t1", "https://example.com/1", "one.pem",
      "e3b0c44298fc1c149afbf4c8996fb92427ae41e4649b934ca495991b7852b855"⟩
    ⟨"t2", "https://example.com/2", "two.pem",
      "0000000000000000000000000000000000000000000000000000000000000000"⟩
    (fun u => if u = "https://example.com/1" then HttpResult.response 200 []
              else HttpResult.failure "down")
    Fs.empty (fun _ => false)
    (by decide) (Or.inl ⟨by decide, by decide⟩)).1

/-- C8: Running the program again after a run, against the same network
responses, leaves the filesystem exactly as the first run left it (each
output file is overwritten with the identical verified content), and reports
the same exit code and success count: the run is idempotent. -/
theorem C8_idempotent (net : Net) (fs0 : Fs) (dirs0 : String → Bool) :
    (main' net (main' net fs0 dirs0).files (main' net fs0 dirs0).dirs).files =
      (main' net fs0 dirs0).files ∧
    (main' net (main' net fs0 dirs0).files (main' net fs0 dirs0).dirs).exitCode =
      (main' net fs0 dirs0).exitCode ∧
    (main' net (main' net fs0 dirs0).files (main' net fs0 dirs0).dirs).success_count =
      (main' net fs0 dirs0).success_count := by
  refine ⟨funext fun p => ?_, ?_, ?_⟩
  · rw [main_files_point, main_files_point]
    by_cases hz : p = bundlePath azureBundle
    · simp [hz, Ne.symm awsPath_ne_azurePath, pathEffect_idem]
    · by_cases ha : p = bundlePath awsBundle
      · simp [hz, ha, awsPath_ne_azurePath, pathEffect_idem]
      · simp [hz, ha]
  · simp only [main', mainWith_exitCode]
  · simp only [main', mainWith_success_count]

/-- C9: For every bundle, the downloaded bytes are written in full to the
destination file before hash verification is performed: after the download
step the file holds exactly the downloaded bytes, so a file of unverified
content transiently exists even for a bundle whose digest ultimately
mismatches (its file is only removed afterwards). -/
theorem C9_write_before_verify (net : Net) (st : RunState) (b : Bundle) (body : List Nat)
    (hnet : net b.url = .response 200 body) :
    (download_certificate_bundle net b.url (bundlePath b) st.files).1 = (true, body) ∧
    (download_certificate_bundle net b.url (bundlePath b) st.files).2.1 (bundlePath b) =
      some body ∧
    (strLower (sha256_hexdigest body) ≠ strLower b.expected_sha256 →
      (processBundle net st b).files (bundlePath b) = none) := by
  refine ⟨?_, ?_, ?_⟩
  · simp [download_certificate_bundle, hnet]
  · simp [download_certificate_bundle, hnet, fsWrite]
  · intro hmis
    rw [processBundle_files_point, if_pos rfl]
    simp [pathEffect, hnet, hmis]

theorem C9_write_before_verify_witness :
    (download_certificate_bundle (fun _ => HttpResult.response 200 [1, 2, 3])
      awsBundle.url (bundlePath awsBundle) (RunState.mk Fs.empty [] 0).files).2.1
      (bundlePath awsBundle) = some [1, 2, 3] :=
  (C9_write_before_verify (fun _ => HttpResult.response 200 [1, 2, 3])
    ⟨Fs.empty, [], 0⟩ awsBundle [1, 2, 3] rfl).2.1

/-- C10: The `certs/` directory under the working directory is recorded as
created by the run before the download loop touches anything (the final
directory set is exactly the initial one plus `certs`, whatever the network
does — including runs in which every bundle fails), so it exists after every
run. -/
theorem C10_certs_dir_created (net : Net) (fs0 : Fs) (dirs0 : String → Bool) :
    (main' net fs0 dirs0).dirs = mkdirCerts dirs0 ∧
    (main' net fs0 dirs0).dirs "certs" = true := by
  have hd : (main' net fs0 dirs0).dirs = mkdirCerts dirs0 := by
    unfold main' mainWith
    dsimp only
    split <;> rfl
  exact ⟨hd, by rw [hd]; simp [mkdirCerts]⟩
